import Mathlib

/-!
Verification development for the `vllm_ascend/models/deepseek_v2.py` decoder
layer.  Tensors are embedded as lists of rows of rationals; the padding plan,
the TP/WP padding transforms, the MoE block and the decoder-layer
orchestration are translated from the source.  Collective-communication
primitives and compute kernels are external collaborators and appear as
abstract operation parameters (a `LayerOps` record); a row-count
instantiation of those operations is used for shape reasoning.
-/

/-- A tensor row: one token's hidden vector. -/
abbrev Row : Type := List ℚ

/-- A 2-D tensor, row-major by token, as in the source's hidden states. -/
abbrev Tensor : Type := List Row

/-- The all-zero row of width `w`; what `F.pad` and `torch.zeros` fill with. -/
def zeroRow (w : Nat) : Row := List.replicate w 0

/-- Maximum of a list of naturals, as `lengths.max().item()` computes it for a
nonempty tensor (0 for the empty list, on which the source would fail). -/
def listMax (xs : List Nat) : Nat := xs.foldr max 0

/-- Boolean-mask row selection, as `padded_data[atten_unpad_mask, :]` selects
rows; defined only when the mask length matches (torch raises otherwise,
see `unpadding_aligned_tp`). -/
def maskFilter {α : Type} : List Bool → List α → List α
  | true :: ms, x :: xs => x :: maskFilter ms xs
  | false :: ms, _ :: xs => maskFilter ms xs
  | _, _ => []

/-- In-place slice assignment `xs[start:start+len(vals)] = vals`, the
functional counterpart of the tensor slice writes in `padding_aligned_wp`
(in-bounds in every use made of it here). -/
def setSlice {α : Type} (xs : List α) (start : Nat) (vals : List α) : List α :=
  xs.take start ++ vals ++ xs.drop (start + vals.length)

/-- The per-pass padding metadata, source dataclass `DPMetadataForPadding`
(the cumulative-token tensor is dropped: it is only used to derive
`lengths`). -/
structure DPMetadataForPadding where
  lengths : List Nat
  max_length : Nat
  pad_size : List Int
  atten_unpad_mask : List Bool

/-- Per-rank token counts from the cumulative counts, source line
`lengths = torch.cat([cu[:1], cu[1:] - cu[:-1]])`. -/
def lengthsOfCu (cu : List Int) : List Int :=
  match cu with
  | [] => []
  | c :: rest => c :: List.zipWith (fun a b => a - b) rest (c :: rest)

/-- The padding plan computed at the start of `CustomDeepseekV2ForCausalLM.forward`
(source lines 907-920): round the max token count up to a multiple of the TP
width, per-rank pad sizes `-(lengths - max_length)`, and the flattened keep
mask `(position_matrix < lengths_tensor).view(-1)`. -/
def computePaddingMetadata (lengths : List Nat) (tp_size : Nat) : DPMetadataForPadding :=
  let max_length := listMax lengths
  let max_length := ((max_length + tp_size - 1) / tp_size) * tp_size
  let pad_size := lengths.map (fun (l : Nat) => -((l : Int) - (max_length : Int)))
  let atten_unpad_mask :=
    lengths.flatMap (fun l => (List.range max_length).map (fun p => decide (p < l)))
  { lengths := lengths, max_length := max_length, pad_size := pad_size,
    atten_unpad_mask := atten_unpad_mask }

/-- Source `padding_aligned_tp(dp_rank, data)`: return `data` unchanged when
`pad_size[dp_rank] == 0`, else append `pad_size[dp_rank]` zero rows
(`F.pad(data, (0, 0, 0, pad_size[dp_rank]))`); `w` is the tensor's column
count, implicit in the source tensor's shape. -/
def padding_aligned_tp (meta : DPMetadataForPadding) (w : Nat) (dp_rank : Nat)
    (data : Tensor) : Tensor :=
  if meta.pad_size.getD dp_rank 0 = 0 then data
  else data ++ List.replicate (meta.pad_size.getD dp_rank 0).toNat (zeroRow w)

/-- Source `unpadding_aligned_tp(padded_data)`: boolean-mask row selection by
`atten_unpad_mask`; torch requires the mask length to equal the row count and
raises `IndexError` otherwise, modelled by `none`. -/
def unpadding_aligned_tp (meta : DPMetadataForPadding) (padded : Tensor) : Option Tensor :=
  if meta.atten_unpad_mask.length = padded.length then
    some (maskFilter meta.atten_unpad_mask padded)
  else none

/-- The copy loop of `padding_aligned_wp`: for each rank, copy that rank's
`seq_len` contiguous rows of `data` into `merged` at the rank's
`max_length`-stride offset, advancing `current_pos` by `max_length` and
`padded_starts` by `seq_len`. -/
def wpCopyLoop {α : Type} (maxLength : Nat) (data : List α) :
    List Nat → Nat → Nat → List α → List α
  | [], _, _, merged => merged
  | seqLen :: rest, currentPos, paddedStarts, merged =>
      wpCopyLoop maxLength data rest (currentPos + maxLength) (paddedStarts + seqLen)
        (setSlice merged currentPos ((data.drop paddedStarts).take seqLen))

/-- Source `padding_aligned_wp(data, ...)`: zero tensor of
`max_length * len(lengths)` rows, then the per-rank copy loop. -/
def padding_aligned_wp (meta : DPMetadataForPadding) (w : Nat) (data : Tensor) : Tensor :=
  wpCopyLoop meta.max_length data meta.lengths 0 0
    (List.replicate (meta.max_length * meta.lengths.length) (zeroRow w))

/-- Source `unpadding_aligned_wp(dp_rank, padded_data)`: slice rank `dp_rank`'s
`max_length`-wide window down to its first `lengths[dp_rank]` rows (python
slicing clamps, as `drop`/`take` do). -/
def unpadding_aligned_wp (meta : DPMetadataForPadding) (dp_rank : Nat)
    (padded : Tensor) : Tensor :=
  (padded.drop (meta.max_length * dp_rank)).take (meta.lengths.getD dp_rank 0)

/-- `torch.chunk(xs, chunks, dim=0)[idx]`: chunk size is the ceiling of
`len/chunks`, chunk `idx` is that window (clamped at the end). -/
def torchChunk {α : Type} (xs : List α) (chunks idx : Nat) : List α :=
  let c := (xs.length + chunks - 1) / chunks
  (xs.drop (c * idx)).take c

/-- Row-wise scalar multiplication of a tensor. -/
def smulT (s : ℚ) (t : Tensor) : Tensor := t.map (fun row => row.map (fun x => s * x))

/-- Source `CustomDeepseekV2MoE.forward` (lines 346-380): under the
combined-communication (MC2) optimization, in decode with TP width > 1, slice
the token batch to this rank's chunk; then the routed experts (an opaque
batched operation, `reduce_results=False`) scaled by the routed scaling
factor.  The graph-mode stream context does not affect the value. -/
def CustomDeepseekV2MoE_forward (enable_mc2 is_prefill : Bool) (tp_size tp_rank : Nat)
    (experts : Tensor → Tensor) (routed_scaling_factor : ℚ) (hidden : Tensor) : Tensor :=
  let hidden :=
    if enable_mc2 && !is_prefill && decide (1 < tp_size) then torchChunk hidden tp_size tp_rank
    else hidden
  smulT routed_scaling_factor (experts hidden)

/-- Construction-time checks of `CustomDeepseekV2MLP.__init__` (lines 158-160):
only the `"silu"` activation is accepted. -/
def CustomDeepseekV2MLP_init (hidden_act : String) : Except String Unit :=
  if hidden_act ≠ "silu" then
    Except.error ("Unsupported activation: " ++ hidden_act ++ ". Only silu is supported for now.")
  else Except.ok ()

/-- Construction-time checks of `CustomDeepseekV2SharedExpertMLP.__init__`
(lines 227-229): only the `"silu"` activation is accepted. -/
def CustomDeepseekV2SharedExpertMLP_init (hidden_act : String) : Except String Unit :=
  if hidden_act ≠ "silu" then
    Except.error ("Unsupported activation: " ++ hidden_act ++ ". Only silu is supported for now.")
  else Except.ok ()

/-- Construction-time checks of `CustomDeepseekV2MoE.__init__` (lines 288-295):
a TP width above the routed-expert count, then a non-`"silu"` activation, are
fatal, in that order. -/
def CustomDeepseekV2MoE_init (tp_size n_routed_experts : Nat)
    (hidden_act : String) : Except String Unit :=
  if tp_size > n_routed_experts then
    Except.error ("Tensor parallel size " ++ toString tp_size ++ " is greater than "
      ++ "the number of experts " ++ toString n_routed_experts ++ ".")
  else if hidden_act ≠ "silu" then
    Except.error ("Unsupported activation: " ++ hidden_act ++ ". Only silu is supported for now.")
  else Except.ok ()

/-- The external collaborators of a decoder layer, abstracted over the value
type `T`: compute kernels (norms, attention, expert MLPs) and the collective
operations of the TP/DP/WP process groups, plus the repo's pad/unpad
transforms as this layer invokes them with the current plan and rank already
fixed.  `postNormPair` is `RMSNorm(x, residual) -> (x, residual)`;
`padSliceResidual` is the residual pad-and-slice at the first MoE layer
(lines 646-651), which reads the reduce-scattered hidden state's row count. -/
structure LayerOps (T : Type) where
  inputNorm : T → T
  attn : T → T
  postNormPair : T → T → T × T
  allReduceTP : T → T
  allReduceWP : T → T
  reduceScatterTP : T → T
  reduceScatterWP : T → T
  allGatherWP : T → T
  allGatherDP : T → T
  padTP : T → T
  unpadTP : T → T
  padWP : T → T
  unpadWP : T → T
  padSliceResidual : T → T → T
  sharedExperts : T → T
  sharedExpertsReduced : T → T
  experts : T → T
  denseMlp : T → T
  chunkOwn : T → T
  mc2AllGather : T → T
  add : T → T → T
  smul : ℚ → T → T

/-- The per-layer configuration consulted by the decoder layer's branches:
phase, mode, parallel widths, layer position, and the FP16/scaling data. -/
structure LayerCfg where
  is_prefill : Bool
  enable_graph_mode : Bool
  enable_mc2 : Bool
  dp_size : Nat
  tp_size : Nat
  layer_idx : Nat
  first_k_dense_replace : Nat
  num_hidden_layers : Nat
  is_moe : Bool
  n_shared_experts : Option Nat
  dtype_fp16 : Bool
  routed_scaling_factor : ℚ

/-- The attention stage of `CustomDeepseekV2DecoderLayer.forward`
(lines 720-740): residual initialization from the pre-norm hidden state when
absent, input norm, attention, and the FP16 overflow-guard scaling of the
hidden state (every layer) and the residual (layer 0 only). -/
def attn_stage {T : Type} (ops : LayerOps T) (cfg : LayerCfg)
    (hidden : T) (residual : Option T) : T × T :=
  let r0 := match residual with | none => hidden | some r => r
  let h1 := ops.attn (ops.inputNorm hidden)
  let h2 := if cfg.dtype_fp16 then ops.smul (1 / cfg.routed_scaling_factor) h1 else h1
  let r1 := if cfg.dtype_fp16 && decide (cfg.layer_idx = 0)
            then ops.smul (1 / cfg.routed_scaling_factor) r0 else r0
  (h2, r1)

/-- Source `CustomDeepseekV2DecoderLayer.post_attention_process`
(lines 631-666), with the per-branch collective sequence translated verbatim. -/
def post_attention_process {T : Type} (ops : LayerOps T) (cfg : LayerCfg)
    (hidden residual : T) : T × T :=
  if cfg.is_prefill || !cfg.enable_graph_mode then
    if cfg.dp_size ≤ 1 ∨ cfg.layer_idx < cfg.first_k_dense_replace then
      ops.postNormPair (ops.allReduceTP hidden) residual
    else
      let h := ops.reduceScatterTP (ops.padTP hidden)
      let r := if cfg.layer_idx = cfg.first_k_dense_replace
               then ops.padSliceResidual h residual else residual
      let p := ops.postNormPair h r
      (ops.unpadTP (ops.allGatherWP p.1), p.2)
  else
    let h := if 1 < cfg.tp_size then ops.allReduceTP hidden else hidden
    let h := if cfg.enable_graph_mode && !cfg.enable_mc2 then ops.allGatherDP h else h
    ops.postNormPair h residual

/-- The MoE block seen from the layer (`self.mlp(hidden_states, is_prefill)`),
i.e. `CustomDeepseekV2MoE.forward` over the abstract operations. -/
def moe_block_forward {T : Type} (ops : LayerOps T) (cfg : LayerCfg) (hidden : T) : T :=
  let h := if cfg.enable_mc2 && !cfg.is_prefill && decide (1 < cfg.tp_size)
           then ops.chunkOwn hidden else hidden
  ops.smul cfg.routed_scaling_factor (ops.experts h)

/-- The MoE FFN stage of `CustomDeepseekV2DecoderLayer.forward`
(lines 744-752): compute the shared-expert output when configured
(`reduce_results=False`), the routed MoE block, and their sum; returns the
pair `(shared_output, hidden)` that is handed to `post_moe_process`. -/
def ffn_stage {T : Type} (ops : LayerOps T) (cfg : LayerCfg) (hidden : T) : Option T × T :=
  let so := if cfg.n_shared_experts.isSome then some (ops.sharedExperts hidden) else none
  let h2 := moe_block_forward ops cfg hidden
  let h3 := match so with
    | some s => ops.add h2 s
    | none => h2
  (so, h3)

/-- Source `CustomDeepseekV2DecoderLayer.post_moe_process` (lines 668-708).
A `none` shared output on a branch that adds it is a fatal type error in the
source (`None + tensor`), modelled by `none`. -/
def post_moe_process {T : Type} (ops : LayerOps T) (cfg : LayerCfg)
    (shared_output : Option T) (hidden residual : T) : Option (T × Option T) :=
  if cfg.is_prefill || !cfg.enable_graph_mode then
    match shared_output with
    | none => none
    | some so =>
      let h := ops.add so hidden
      if cfg.dp_size ≤ 1 then some (ops.allReduceWP h, none)
      else
        let h := ops.padWP h
        let h := ops.reduceScatterWP h
        let h := ops.add h residual
        let r := h
        let h := ops.allGatherWP h
        let h := ops.unpadWP h
        if cfg.layer_idx = cfg.num_hidden_layers - 1 then some (h, none)
        else some (h, some r)
  else
    if cfg.enable_mc2 then
      if cfg.n_shared_experts.isSome then
        let so := ops.sharedExpertsReduced hidden
        let fin := ops.mc2AllGather hidden
        let h := ops.add so fin
        let h := ops.add h residual
        some (h, none)
      else none
    else
      match shared_output with
      | none => none
      | some so =>
        let h := ops.add so hidden
        let h := ops.allReduceWP h
        let h := ops.add h residual
        some (h, none)

/-- Source `CustomDeepseekV2DecoderLayer.forward` (lines 711-771): attention
stage, post-attention communication, MoE or dense FFN, post-MoE communication
or dense residual addition (which clears the residual), and the FP16 rescale
of the dense-MLP output. -/
def layer_forward {T : Type} (ops : LayerOps T) (cfg : LayerCfg)
    (hidden : T) (residual : Option T) : Option (T × Option T) :=
  let st := attn_stage ops cfg hidden residual
  let pa := post_attention_process ops cfg st.1 st.2
  let ffnRes :=
    if cfg.is_moe then
      post_moe_process ops cfg (ffn_stage ops cfg pa.1).1 (ffn_stage ops cfg pa.1).2 pa.2
    else
      some (ops.add (ops.denseMlp pa.1) pa.2, none)
  ffnRes.map (fun p =>
    (if !cfg.is_moe && cfg.dtype_fp16 then ops.smul (1 / cfg.routed_scaling_factor) p.1 else p.1,
     p.2))

/-- Row-count addition: torch elementwise `+` requires equal row counts
(size-1 broadcasting never arises on the modelled paths); `none` propagates a
prior shape error. -/
def sAdd : Option Nat → Option Nat → Option Nat
  | some a, some b => if a = b then some a else none
  | _, _ => none

/-- The row-count (shape) semantics of the layer's operations: compute kernels
preserve the row count; `all_gather`/`reduce_scatter` on a group multiply or
divide it by the group's world size (`reduce_scatter_tensor` requires
divisibility, `all_gather_into_tensor` requires the preallocated output's row
count to be world-size times the input's); the pad/unpad transforms act as
the row counts of `padding_aligned_tp`/`unpadding_aligned_tp`/
`padding_aligned_wp`/`unpadding_aligned_wp` and `torch.chunk` do. -/
def shapeOps (meta : DPMetadataForPadding) (dp_rank tp_rank tp_size dp_size wp_size : Nat) :
    LayerOps (Option Nat) :=
  { inputNorm := id
    attn := id
    postNormPair := fun h r => (sAdd h r, sAdd h r)
    allReduceTP := id
    allReduceWP := id
    reduceScatterTP := fun h => h.bind (fun n => if tp_size ∣ n then some (n / tp_size) else none)
    reduceScatterWP := fun h => h.bind (fun n => if wp_size ∣ n then some (n / wp_size) else none)
    allGatherWP := Option.map (fun n => wp_size * n)
    allGatherDP := Option.map (fun n => dp_size * n)
    padTP := Option.map (fun n =>
      if meta.pad_size.getD dp_rank 0 = 0 then n else n + (meta.pad_size.getD dp_rank 0).toNat)
    unpadTP := fun h => h.bind (fun n =>
      if meta.atten_unpad_mask.length = n then some (meta.atten_unpad_mask.count true) else none)
    padWP := Option.map (fun _ => meta.max_length * meta.lengths.length)
    unpadWP := Option.map (fun n => min (meta.lengths.getD dp_rank 0) (n - meta.max_length * dp_rank))
    padSliceResidual := fun h r => h.bind (fun hn => r.map (fun _ => hn))
    sharedExperts := id
    sharedExpertsReduced := id
    experts := id
    denseMlp := id
    chunkOwn := Option.map (fun n =>
      min ((n + tp_size - 1) / tp_size) (n - (n + tp_size - 1) / tp_size * tp_rank))
    mc2AllGather := fun h => h.bind (fun n => if tp_size * n = n then some n else none)
    add := sAdd
    smul := fun _ h => h }

/-- A concrete value instantiation of the layer operations over `ℚ`, with
pairwise-distinct functions, used to witness the orchestration theorems. -/
def opsQ : LayerOps ℚ :=
  { inputNorm := fun h => h + 1
    attn := fun h => 3 * h
    postNormPair := fun h r => (h + r, h + r)
    allReduceTP := fun h => 5 * h
    allReduceWP := fun h => 7 * h
    reduceScatterTP := fun h => h + 11
    reduceScatterWP := fun h => h + 13
    allGatherWP := fun h => h + 17
    allGatherDP := fun h => h + 19
    padTP := fun h => h + 23
    unpadTP := fun h => h + 29
    padWP := fun h => h + 31
    unpadWP := fun h => h + 37
    padSliceResidual := fun h r => h + r + 41
    sharedExperts := fun h => 2 * h + 1
    sharedExpertsReduced := fun h => 2 * h + 3
    experts := fun h => h * h
    denseMlp := fun h => h + 43
    chunkOwn := fun h => h - 47
    mc2AllGather := fun h => h + 53
    add := fun a b => a + b
    smul := fun s h => s * h }

/-- A graph-mode decode configuration (MC2 off). -/
def cfgGraphDecode : LayerCfg :=
  { is_prefill := false, enable_graph_mode := true, enable_mc2 := false,
    dp_size := 2, tp_size := 2, layer_idx := 5, first_k_dense_replace := 3,
    num_hidden_layers := 10, is_moe := true, n_shared_experts := some 1,
    dtype_fp16 := false, routed_scaling_factor := 2 }

/-- An eager/prefill MoE configuration with `dp = 2`, `tp = 2`, at a
non-first, non-last MoE layer. -/
def cfgMoeEager : LayerCfg :=
  { is_prefill := true, enable_graph_mode := false, enable_mc2 := false,
    dp_size := 2, tp_size := 2, layer_idx := 4, first_k_dense_replace := 3,
    num_hidden_layers := 10, is_moe := true, n_shared_experts := some 1,
    dtype_fp16 := false, routed_scaling_factor := 2 }

/-- An eager/prefill dense (non-MoE) configuration at an intermediate layer
(`layer_idx = 1` of 3). -/
def cfgDenseEager : LayerCfg :=
  { is_prefill := true, enable_graph_mode := false, enable_mc2 := false,
    dp_size := 1, tp_size := 1, layer_idx := 1, first_k_dense_replace := 3,
    num_hidden_layers := 3, is_moe := false, n_shared_experts := none,
    dtype_fp16 := false, routed_scaling_factor := 2 }

/-- The dense configuration of `cfgDenseEager` at layer 0 with FP16 hidden
states. -/
def cfgFp16Dense : LayerCfg :=
  { is_prefill := true, enable_graph_mode := false, enable_mc2 := false,
    dp_size := 1, tp_size := 1, layer_idx := 0, first_k_dense_replace := 3,
    num_hidden_layers := 3, is_moe := false, n_shared_experts := none,
    dtype_fp16 := true, routed_scaling_factor := 2 }

/-- A packed tensor of 8 one-column rows, the `lengths = [5,3]` scenario's
global token batch. -/
def dataWp : Tensor := [[1], [2], [3], [4], [5], [6], [7], [8]]

lemma le_listMax {l : Nat} {xs : List Nat} (h : l ∈ xs) : l ≤ listMax xs := by
  induction xs with
  | nil => cases h
  | cons a as ih =>
    rcases List.mem_cons.mp h with rfl | h2
    · exact le_max_left _ _
    · exact le_trans (ih h2) (le_max_right _ _)

lemma listMax_le {xs : List Nat} {m : Nat} (h : ∀ l ∈ xs, l ≤ m) : listMax xs ≤ m := by
  induction xs with
  | nil => exact Nat.zero_le m
  | cons a as ih =>
    exact max_le (h a (List.mem_cons_self a as)) (ih (fun l hl => h l (List.mem_cons_of_mem a hl)))

lemma le_roundUp (a tp : Nat) (h : 0 < tp) : a ≤ (a + tp - 1) / tp * tp := by
  have h1 := Nat.div_add_mod (a + tp - 1) tp
  have h2 : (a + tp - 1) % tp < tp := Nat.mod_lt _ h
  have h3 : (a + tp - 1) / tp * tp = tp * ((a + tp - 1) / tp) := Nat.mul_comm _ _
  omega

lemma roundUp_dvd (a tp : Nat) : tp ∣ (a + tp - 1) / tp * tp :=
  dvd_mul_left tp ((a + tp - 1) / tp)

lemma roundUp_min (a tp m : Nat) (h : 0 < tp) (hd : tp ∣ m) (hm : a ≤ m) :
    (a + tp - 1) / tp * tp ≤ m := by
  obtain ⟨k, rfl⟩ := hd
  have h1 : a + tp - 1 ≤ (tp - 1) + tp * k := by omega
  have h2 : (a + tp - 1) / tp ≤ ((tp - 1) + tp * k) / tp := Nat.div_le_div_right h1
  have h3 : ((tp - 1) + tp * k) / tp = (tp - 1) / tp + k := Nat.add_mul_div_left _ _ h
  have h4 : (tp - 1) / tp = 0 := Nat.div_eq_of_lt (by omega)
  have h5 : (a + tp - 1) / tp ≤ k := by omega
  calc (a + tp - 1) / tp * tp ≤ k * tp := Nat.mul_le_mul_right tp h5
    _ = tp * k := Nat.mul_comm _ _

lemma mem_le_max_length (lengths : List Nat) (tp_size : Nat) (htp : 0 < tp_size) :
    ∀ l ∈ lengths, l ≤ (computePaddingMetadata lengths tp_size).max_length := by
  intro l hl
  exact le_trans (le_listMax hl) (le_roundUp (listMax lengths) tp_size htp)

lemma count_range_lt (M l : Nat) :
    ((List.range M).map (fun p => decide (p < l))).count true = min M l := by
  induction M with
  | zero => simp
  | succ n ih =>
    rw [List.range_succ, List.map_append, List.count_append, ih]
    by_cases h : n < l <;> simp [h] <;> omega

lemma mask_count (lengths : List Nat) (M : Nat) (hle : ∀ l ∈ lengths, l ≤ M) :
    (lengths.flatMap (fun l => (List.range M).map (fun p => decide (p < l)))).count true
      = lengths.sum := by
  induction lengths with
  | nil => simp
  | cons a as ih =>
    rw [List.flatMap_cons, List.count_append, count_range_lt,
      ih (fun l hl => hle l (List.mem_cons_of_mem a hl)), List.sum_cons,
      min_eq_right (hle a (List.mem_cons_self a as))]

lemma getD_pad_size (lengths : List Nat) (tp_size r : Nat) (hr : r < lengths.length) :
    (computePaddingMetadata lengths tp_size).pad_size.getD r 0
      = ((computePaddingMetadata lengths tp_size).max_length : Int) - (lengths.getD r 0 : Int) := by
  have hmap : (computePaddingMetadata lengths tp_size).pad_size
      = lengths.map (fun (l : Nat) =>
          -((l : Int) - ((computePaddingMetadata lengths tp_size).max_length : Int))) := rfl
  rw [hmap, List.getD_eq_getElem?_getD, List.getElem?_map,
    List.getElem?_eq_getElem hr, List.getD_eq_getElem?_getD, List.getElem?_eq_getElem hr]
  simp [neg_sub]

/-- C3: the padding plan satisfies its postconditions: `max_length` is the
smallest multiple of the TP width that is at least every per-rank token count,
`pad_size[r] = max_length - lengths[r]` for every rank, and the keep mask has
exactly `sum(lengths)` true entries. -/
theorem padding_plan_postconditions (lengths : List Nat) (tp_size : Nat) (htp : 0 < tp_size)
    (meta : DPMetadataForPadding) (hmeta : meta = computePaddingMetadata lengths tp_size) :
    (tp_size ∣ meta.max_length
      ∧ (∀ l ∈ lengths, l ≤ meta.max_length)
      ∧ (∀ m, tp_size ∣ m → (∀ l ∈ lengths, l ≤ m) → meta.max_length ≤ m))
    ∧ (∀ r, r < lengths.length →
        meta.pad_size.getD r 0 = (meta.max_length : Int) - (lengths.getD r 0 : Int))
    ∧ meta.atten_unpad_mask.count true = lengths.sum := by
  subst hmeta
  refine ⟨⟨roundUp_dvd _ _, mem_le_max_length lengths tp_size htp, ?_⟩, ?_, ?_⟩
  · intro m hd hm
    exact roundUp_min (listMax lengths) tp_size m htp hd (listMax_le hm)
  · intro r hr
    exact getD_pad_size lengths tp_size r hr
  · exact mask_count lengths _ (mem_le_max_length lengths tp_size htp)

/-- Witness for C3 at the spec's literal instance `lengths = [5,3]`, `tp = 2`:
the plan yields `max_length = 6`, `pad_size = [1,3]` and a keep mask with
exactly 8 true entries. -/
theorem padding_plan_postconditions_witness :
    (0 < 2)
    ∧ (computePaddingMetadata [5, 3] 2).max_length = 6
    ∧ (computePaddingMetadata [5, 3] 2).pad_size = [1, 3]
    ∧ (computePaddingMetadata [5, 3] 2).atten_unpad_mask.count true = 8
    ∧ 2 ∣ (computePaddingMetadata [5, 3] 2).max_length :=
  ⟨by decide, by decide, by decide, by decide,
    (padding_plan_postconditions [5, 3] 2 (by decide) _ rfl).1.1⟩

lemma pad_tp_eq_append (meta : DPMetadataForPadding) (w dp_rank : Nat) (d : Tensor) :
    padding_aligned_tp meta w dp_rank d
      = d ++ List.replicate (meta.pad_size.getD dp_rank 0).toNat (zeroRow w) := by
  unfold padding_aligned_tp
  split
  · rename_i h
    rw [h]
    simp
  · rfl

lemma maskFilter_nil_left {α : Type} (xs : List α) : maskFilter [] xs = [] := by
  unfold maskFilter
  rfl

lemma maskFilter_trues {α : Type} :
    ∀ (d : List α) (ms : List Bool) (xs : List α),
    maskFilter (List.replicate d.length true ++ ms) (d ++ xs) = d ++ maskFilter ms xs := by
  intro d
  induction d with
  | nil => intro ms xs; simp
  | cons a as ih =>
    intro ms xs
    simp only [List.length_cons, List.replicate_succ, List.cons_append]
    rw [maskFilter]
    rw [ih]

lemma maskFilter_falses {α : Type} :
    ∀ (k : Nat) (e : List α) (ms : List Bool) (xs : List α), e.length = k →
    maskFilter (List.replicate k false ++ ms) (e ++ xs) = maskFilter ms xs := by
  intro k
  induction k with
  | zero =>
    intro e ms xs he
    rw [List.eq_nil_of_length_eq_zero he]
    simp
  | succ n ih =>
    intro e ms xs he
    cases e with
    | nil => simp at he
    | cons a as =>
      simp only [List.replicate_succ, List.cons_append]
      rw [maskFilter]
      exact ih as ms xs (by simpa using he)

lemma range_lt_mask (M l : Nat) (h : l ≤ M) :
    (List.range M).map (fun p => decide (p < l))
      = List.replicate l true ++ List.replicate (M - l) false := by
  have hM : M = l + (M - l) := by omega
  rw [hM, List.range_add, List.map_append, List.map_map]
  congr 1
  · rw [List.eq_replicate_iff]
    refine ⟨by simp, ?_⟩
    intro b hb
    rcases List.mem_map.mp hb with ⟨p, hp, rfl⟩
    simp [List.mem_range.mp hp]
  · rw [List.eq_replicate_iff]
    refine ⟨by simp, ?_⟩
    intro b hb
    rcases List.mem_map.mp hb with ⟨p, hp, rfl⟩
    simp

lemma maskFilter_blocks (M w : Nat) :
    ∀ (ls : List Nat) (ds : List Tensor),
    List.Forall₂ (fun l (d : Tensor) => d.length = l) ls ds →
    (∀ l ∈ ls, l ≤ M) →
    maskFilter (ls.flatMap (fun l => (List.range M).map (fun p => decide (p < l))))
        ((List.zipWith (fun l (d : Tensor) => d ++ List.replicate (M - l) (zeroRow w)) ls ds).flatten)
      = ds.flatten := by
  intro ls ds hfa
  induction hfa with
  | nil => intro _; simp [maskFilter_nil_left]
  | @cons l d ls' ds' hld _ ih =>
    intro hle
    rw [List.flatMap_cons, List.zipWith_cons_cons, List.flatten_cons, List.flatten_cons,
      range_lt_mask M l (hle l (List.mem_cons_self l ls')), List.append_assoc, List.append_assoc]
    rw [← hld, maskFilter_trues]
    rw [maskFilter_falses (M - d.length) (List.replicate (M - d.length) (zeroRow w)) _ _
      (by simp)]
    rw [ih (fun x hx => hle x (List.mem_cons_of_mem l hx))]

lemma blocks_flatten_length (M w : Nat) :
    ∀ (ls : List Nat) (ds : List Tensor),
    List.Forall₂ (fun l (d : Tensor) => d.length = l) ls ds →
    (∀ l ∈ ls, l ≤ M) →
    ((List.zipWith (fun l (d : Tensor) => d ++ List.replicate (M - l) (zeroRow w)) ls ds).flatten).length
      = M * ls.length := by
  intro ls ds hfa
  induction hfa with
  | nil => intro _; simp
  | @cons l d ls' ds' hld _ ih =>
    intro hle
    rw [List.zipWith_cons_cons, List.flatten_cons, List.length_append, List.length_append,
      ih (fun x hx => hle x (List.mem_cons_of_mem l hx))]
    have : l ≤ M := hle l (List.mem_cons_self l ls')
    simp [hld, Nat.mul_succ]
    omega

lemma mask_length (M : Nat) (ls : List Nat) :
    (ls.flatMap (fun l => (List.range M).map (fun p => decide (p < l)))).length
      = M * ls.length := by
  induction ls with
  | nil => simp
  | cons a as ih =>
    rw [List.flatMap_cons, List.length_append, ih]
    simp [Nat.mul_succ]
    omega

lemma zipWith_pad_range' (meta : DPMetadataForPadding) (w : Nat) :
    ∀ (ds : List Tensor) (k : Nat), k + ds.length ≤ meta.pad_size.length →
    List.zipWith (fun r d => padding_aligned_tp meta w r d) (List.range' k ds.length) ds
      = List.zipWith (fun p (d : Tensor) => d ++ List.replicate p.toNat (zeroRow w))
          (meta.pad_size.drop k) ds := by
  intro ds
  induction ds with
  | nil => intro k _; simp
  | cons d ds' ih =>
    intro k hk
    have hklt : k < meta.pad_size.length := by
      simp only [List.length_cons] at hk
      omega
    rw [List.length_cons, List.range'_succ, List.zipWith_cons_cons,
      List.drop_eq_getElem_cons hklt, List.zipWith_cons_cons,
      pad_tp_eq_append, List.getD_eq_getElem?_getD, List.getElem?_eq_getElem hklt]
    rw [ih (k + 1) (by simp only [List.length_cons] at hk; omega)]
    rfl

/-- C1 counterexample: with two data-parallel ranks (`lengths = [2,1]`,
`tp = 1`) the keep mask has `dp_size * max_length = 4` entries, so applying
`unpadding_aligned_tp` directly to the single padded tensor of rank 1 (2 rows)
is a mask-length mismatch — an `IndexError` in the source, `none` here — and
not the original tensor `[[5]]`. -/
theorem tp_roundtrip_counterexample :
    unpadding_aligned_tp (computePaddingMetadata [2, 1] 1)
        (padding_aligned_tp (computePaddingMetadata [2, 1] 1) 1 1 [[5]])
      ≠ some [[5]]
    ∧ unpadding_aligned_tp (computePaddingMetadata [2, 1] 1)
        (padding_aligned_tp (computePaddingMetadata [2, 1] 1) 1 1 [[5]]) = none := by
  constructor
  · decide
  · decide

/-- C1 amended: `padding_aligned_tp` appends exactly `pad_size[rank]` zero
rows (a no-op when `pad_size[rank] = 0`), and `unpadding_aligned_tp` inverts
the per-rank padding jointly: applied to the concatenation over all
data-parallel ranks of the padded per-rank tensors it returns the
concatenation of the originals.  (The claim's literal per-rank composition
holds only when `dp_size = 1`; see the counterexample.) -/
theorem tp_roundtrip_amended (lengths : List Nat) (tp_size w : Nat) (htp : 0 < tp_size)
    (meta : DPMetadataForPadding) (hmeta : meta = computePaddingMetadata lengths tp_size)
    (ds : List Tensor) (hfa : List.Forall₂ (fun l (d : Tensor) => d.length = l) lengths ds) :
    (∀ r d, padding_aligned_tp meta w r d
        = d ++ List.replicate (meta.pad_size.getD r 0).toNat (zeroRow w))
    ∧ (∀ r d, meta.pad_size.getD r 0 = 0 → padding_aligned_tp meta w r d = d)
    ∧ unpadding_aligned_tp meta
        ((List.zipWith (fun r d => padding_aligned_tp meta w r d)
            (List.range ds.length) ds).flatten)
      = some ds.flatten := by
  subst hmeta
  refine ⟨fun r d => pad_tp_eq_append _ w r d, ?_, ?_⟩
  · intro r d h
    unfold padding_aligned_tp
    rw [if_pos h]
  · have hlen : lengths.length = ds.length := hfa.length_eq
    have hps : (computePaddingMetadata lengths tp_size).pad_size.length = lengths.length :=
      List.length_map _ _
    have hle := mem_le_max_length lengths tp_size htp
    have hmap : (computePaddingMetadata lengths tp_size).pad_size
        = lengths.map (fun (l : Nat) =>
            -((l : Int) - ((computePaddingMetadata lengths tp_size).max_length : Int))) := rfl
    rw [List.range_eq_range',
      zipWith_pad_range' (computePaddingMetadata lengths tp_size) w ds 0 (by omega),
      List.drop_zero, hmap, List.zipWith_map_left]
    simp only [neg_sub, Int.toNat_sub]
    have hmask : (computePaddingMetadata lengths tp_size).atten_unpad_mask
        = lengths.flatMap (fun l =>
            (List.range (computePaddingMetadata lengths tp_size).max_length).map
              (fun p => decide (p < l))) := rfl
    unfold unpadding_aligned_tp
    rw [hmask, if_pos, maskFilter_blocks _ w lengths ds hfa hle]
    rw [mask_length, blocks_flatten_length _ w lengths ds hfa hle]

/-- Witness for the amended C1 at `lengths = [1,1]`, `tp = 2` (so
`max_length = 2`, `pad_size = [1,1]`): unpadding the concatenation of the two
padded rank tensors `[[1]]` and `[[2]]` recovers `[[1],[2]]`. -/
theorem tp_roundtrip_amended_witness :
    (0 < 2)
    ∧ unpadding_aligned_tp (computePaddingMetadata [1, 1] 2)
        ((List.zipWith
            (fun r d => padding_aligned_tp (computePaddingMetadata [1, 1] 2) 1 r d)
            (List.range ([[[1]], [[2]]] : List Tensor).length) [[[1]], [[2]]]).flatten)
      = some ([[[1]], [[2]]] : List Tensor).flatten :=
  ⟨by decide, (tp_roundtrip_amended [1, 1] 2 1 (by decide) _ rfl [[[1]], [[2]]]
      (List.forall₂_cons.mpr ⟨rfl, List.forall₂_cons.mpr ⟨rfl, List.Forall₂.nil⟩⟩)).2.2⟩

lemma setSlice_length {α : Type} (xs vals : List α) (start : Nat)
    (h : start + vals.length ≤ xs.length) :
    (setSlice xs start vals).length = xs.length := by
  simp only [setSlice, List.length_append, List.length_take, List.length_drop]
  omega

lemma setSlice_take {α : Type} (xs vals : List α) (start : Nat) (h : start ≤ xs.length) :
    (setSlice xs start vals).take start = xs.take start := by
  have hl : (xs.take start).length = start := by
    simp only [List.length_take]
    omega
  unfold setSlice
  rw [List.append_assoc, List.take_append_eq_append_take, hl, Nat.sub_self, List.take_zero,
    List.append_nil, List.take_take, Nat.min_self]

lemma setSlice_drop {α : Type} (xs vals : List α) (start : Nat) (h : start ≤ xs.length) :
    (setSlice xs start vals).drop start = vals ++ xs.drop (start + vals.length) := by
  have hl : (xs.take start).length = start := by
    simp only [List.length_take]
    omega
  unfold setSlice
  rw [List.append_assoc, List.drop_append_eq_append_drop, hl, Nat.sub_self, List.drop_zero,
    List.drop_eq_nil_of_le (le_of_eq hl), List.nil_append]

lemma wpCopyLoop_length {α : Type} (M : Nat) (data : List α) :
    ∀ (ls : List Nat) (cp ps : Nat) (merged : List α),
    cp + M * ls.length ≤ merged.length → (∀ l ∈ ls, l ≤ M) →
    (wpCopyLoop M data ls cp ps merged).length = merged.length := by
  intro ls
  induction ls with
  | nil => intro cp ps merged _ _; rfl
  | cons l rest ih =>
    intro cp ps merged hlen hle
    have hlM : l ≤ M := hle l (List.mem_cons_self _ _)
    have hlen2 : cp + (M * rest.length + M) ≤ merged.length := by
      simp only [List.length_cons, Nat.mul_succ] at hlen
      omega
    have hvl : ((data.drop ps).take l).length ≤ l := by
      simp only [List.length_take]
      omega
    have hs : cp + ((data.drop ps).take l).length ≤ merged.length := by omega
    have hss : (setSlice merged cp ((data.drop ps).take l)).length = merged.length :=
      setSlice_length _ _ _ hs
    rw [wpCopyLoop, ih (cp + M) (ps + l) _ (by omega) (fun x hx => hle x (List.mem_cons_of_mem _ hx)),
      hss]

lemma wpCopyLoop_take {α : Type} (M : Nat) (data : List α) :
    ∀ (ls : List Nat) (cp ps : Nat) (merged : List α),
    cp + M * ls.length ≤ merged.length → (∀ l ∈ ls, l ≤ M) →
    (wpCopyLoop M data ls cp ps merged).take cp = merged.take cp := by
  intro ls
  induction ls with
  | nil => intro cp ps merged _ _; rfl
  | cons l rest ih =>
    intro cp ps merged hlen hle
    have hlM : l ≤ M := hle l (List.mem_cons_self _ _)
    have hlen2 : cp + (M * rest.length + M) ≤ merged.length := by
      simp only [List.length_cons, Nat.mul_succ] at hlen
      omega
    have hvl : ((data.drop ps).take l).length ≤ l := by
      simp only [List.length_take]
      omega
    have hss : (setSlice merged cp ((data.drop ps).take l)).length = merged.length :=
      setSlice_length _ _ _ (by omega)
    have h1 : (wpCopyLoop M data rest (cp + M) (ps + l)
          (setSlice merged cp ((data.drop ps).take l))).take (cp + M)
        = (setSlice merged cp ((data.drop ps).take l)).take (cp + M) :=
      ih (cp + M) (ps + l) _ (by omega) (fun x hx => hle x (List.mem_cons_of_mem _ hx))
    rw [wpCopyLoop]
    calc (wpCopyLoop M data rest (cp + M) (ps + l)
            (setSlice merged cp ((data.drop ps).take l))).take cp
        = ((wpCopyLoop M data rest (cp + M) (ps + l)
            (setSlice merged cp ((data.drop ps).take l))).take (cp + M)).take cp := by
          rw [List.take_take, min_eq_left (by omega)]
      _ = ((setSlice merged cp ((data.drop ps).take l)).take (cp + M)).take cp := by rw [h1]
      _ = (setSlice merged cp ((data.drop ps).take l)).take cp := by
          rw [List.take_take, min_eq_left (by omega)]
      _ = merged.take cp := setSlice_take _ _ _ (by omega)

lemma wpCopyLoop_slot {α : Type} (M : Nat) (z : α) (data : List α) :
    ∀ (ls : List Nat) (cp ps : Nat) (merged : List α),
    merged.length = cp + M * ls.length →
    merged.drop cp = List.replicate (M * ls.length) z →
    (∀ l ∈ ls, l ≤ M) →
    ps + ls.sum ≤ data.length →
    ∀ r, r < ls.length →
    ((wpCopyLoop M data ls cp ps merged).drop (cp + M * r)).take M
      = (data.drop (ps + (ls.take r).sum)).take (ls.getD r 0)
        ++ List.replicate (M - ls.getD r 0) z := by
  intro ls
  induction ls with
  | nil =>
    intro cp ps merged _ _ _ _ r hr
    exact absurd hr (Nat.not_lt_zero r)
  | cons l rest ih =>
    intro cp ps merged hlen hzero hle hdata r hr
    have hlM : l ≤ M := hle l (List.mem_cons_self _ _)
    have hle' : ∀ x ∈ rest, x ≤ M := fun x hx => hle x (List.mem_cons_of_mem _ hx)
    have hsum : ps + l + rest.sum ≤ data.length := by
      simp only [List.sum_cons] at hdata
      omega
    have hlen' : merged.length = cp + M + M * rest.length := by
      simp only [List.length_cons, Nat.mul_succ] at hlen
      omega
    have hvl : ((data.drop ps).take l).length = l := by
      simp only [List.length_take, List.length_drop]
      omega
    have hcp : cp ≤ merged.length := by omega
    have hss : (setSlice merged cp ((data.drop ps).take l)).length = merged.length :=
      setSlice_length _ _ _ (by rw [hvl]; omega)
    have hdropcp : (setSlice merged cp ((data.drop ps).take l)).drop cp
        = (data.drop ps).take l ++ merged.drop (cp + l) := by
      rw [setSlice_drop _ _ _ hcp, hvl]
    have hmz : merged.drop (cp + l) = List.replicate (M * rest.length + M - l) z := by
      have h1 : merged.drop (cp + l) = (merged.drop cp).drop l := by
        rw [List.drop_drop]
      rw [h1, hzero, List.drop_replicate]
      congr 1
    have hdropM : (setSlice merged cp ((data.drop ps).take l)).drop (cp + M)
        = List.replicate (M * rest.length) z := by
      have h2 : (setSlice merged cp ((data.drop ps).take l)).drop (cp + M)
          = ((setSlice merged cp ((data.drop ps).take l)).drop cp).drop M := by
        rw [List.drop_drop]
      rw [h2, hdropcp, List.drop_append_eq_append_drop,
        show ((data.drop ps).take l).drop M = [] from
          List.drop_eq_nil_of_le (by rw [hvl]; omega),
        List.nil_append, hvl, hmz, List.drop_replicate]
      congr 1
      omega
    cases r with
    | zero =>
      rw [wpCopyLoop]
      have htk : (wpCopyLoop M data rest (cp + M) (ps + l)
            (setSlice merged cp ((data.drop ps).take l))).take (cp + M)
          = (setSlice merged cp ((data.drop ps).take l)).take (cp + M) :=
        wpCopyLoop_take M data rest (cp + M) (ps + l) _ (by rw [hss]; omega) hle'
      simp only [Nat.mul_zero, Nat.add_zero, List.take_zero, List.sum_nil, List.getD_cons_zero]
      have hkey : ((wpCopyLoop M data rest (cp + M) (ps + l)
            (setSlice merged cp ((data.drop ps).take l))).drop cp).take M
          = ((wpCopyLoop M data rest (cp + M) (ps + l)
            (setSlice merged cp ((data.drop ps).take l))).take (cp + M)).drop cp := by
        rw [List.drop_take]
        congr 1
        omega
      rw [hkey, htk, List.drop_take, show cp + M - cp = M from by omega, hdropcp,
        List.take_append_eq_append_take,
        show ((data.drop ps).take l).take M = (data.drop ps).take l from
          List.take_of_length_le (by rw [hvl]; omega),
        hvl, hmz, List.take_replicate, min_eq_left (by omega : M - l ≤ M * rest.length + M - l)]
    | succ r' =>
      rw [wpCopyLoop]
      have harr : cp + M * (r' + 1) = (cp + M) + M * r' := by
        rw [Nat.mul_succ]
        omega
      rw [harr]
      have hres := ih (cp + M) (ps + l) (setSlice merged cp ((data.drop ps).take l))
        (by rw [hss]; omega) hdropM hle' (by omega) r' (by simpa using hr)
      simp only [List.take_succ_cons, List.sum_cons, List.getD_cons_succ]
      rw [show ps + (l + (rest.take r').sum) = ps + l + (rest.take r').sum from by omega]
      exact hres

lemma getD_mem_of_lt {lengths : List Nat} {r : Nat} (hr : r < lengths.length) :
    lengths.getD r 0 ∈ lengths := by
  rw [List.getD_eq_getElem?_getD, List.getElem?_eq_getElem hr]
  exact List.getElem_mem hr

lemma sum_take_getD_le {lengths : List Nat} {r : Nat} (hr : r < lengths.length) :
    (lengths.take r).sum + lengths.getD r 0 ≤ lengths.sum := by
  have h1 := List.sum_take_add_sum_drop lengths r
  rw [List.drop_eq_getElem_cons hr, List.sum_cons] at h1
  have h2 : lengths.getD r 0 = lengths[r] := by
    rw [List.getD_eq_getElem?_getD, List.getElem?_eq_getElem hr]
    rfl
  omega

/-- C2: WP-alignment round trip: with the current plan, for a tensor packed
contiguously by rank (`sum(lengths)` rows), `unpadding_aligned_wp` recovers
rank `r`'s contiguous block of the packed input from
`padding_aligned_wp`'s output, and `padding_aligned_wp` places rank `r`'s
`lengths[r]` rows at row offset `r * max_length`, zero-filling the rest of
the rank's `max_length`-wide slot. -/
theorem wp_roundtrip (lengths : List Nat) (tp_size w : Nat) (htp : 0 < tp_size)
    (meta : DPMetadataForPadding) (hmeta : meta = computePaddingMetadata lengths tp_size)
    (data : Tensor) (hdata : data.length = lengths.sum)
    (r : Nat) (hr : r < lengths.length) :
    unpadding_aligned_wp meta r (padding_aligned_wp meta w data)
        = (data.drop ((lengths.take r).sum)).take (lengths.getD r 0)
    ∧ ((padding_aligned_wp meta w data).drop (meta.max_length * r + lengths.getD r 0)).take
          (meta.max_length - lengths.getD r 0)
        = List.replicate (meta.max_length - lengths.getD r 0) (zeroRow w) := by
  subst hmeta
  have hle : ∀ l ∈ lengths, l ≤ (computePaddingMetadata lengths tp_size).max_length :=
    mem_le_max_length lengths tp_size htp
  have hlr : lengths.getD r 0 ≤ (computePaddingMetadata lengths tp_size).max_length :=
    hle _ (getD_mem_of_lt hr)
  have hslot := wpCopyLoop_slot (computePaddingMetadata lengths tp_size).max_length
      (zeroRow w) data lengths 0 0
      (List.replicate
        ((computePaddingMetadata lengths tp_size).max_length * lengths.length) (zeroRow w))
      (by simp) (by simp) hle (by omega) r hr
  simp only [Nat.zero_add] at hslot
  have hpad : padding_aligned_wp (computePaddingMetadata lengths tp_size) w data
      = wpCopyLoop (computePaddingMetadata lengths tp_size).max_length data lengths 0 0
          (List.replicate
            ((computePaddingMetadata lengths tp_size).max_length * lengths.length)
            (zeroRow w)) := rfl
  have hunp : unpadding_aligned_wp (computePaddingMetadata lengths tp_size) r
        (padding_aligned_wp (computePaddingMetadata lengths tp_size) w data)
      = ((padding_aligned_wp (computePaddingMetadata lengths tp_size) w data).drop
          ((computePaddingMetadata lengths tp_size).max_length * r)).take
            (lengths.getD r 0) := rfl
  have hA : ((data.drop ((lengths.take r).sum)).take (lengths.getD r 0)).length
      = lengths.getD r 0 := by
    have := sum_take_getD_le hr
    simp only [List.length_take, List.length_drop]
    omega
  constructor
  · rw [hunp, hpad]
    have htk : ((wpCopyLoop (computePaddingMetadata lengths tp_size).max_length data lengths 0 0
          (List.replicate
            ((computePaddingMetadata lengths tp_size).max_length * lengths.length)
            (zeroRow w))).drop
            ((computePaddingMetadata lengths tp_size).max_length * r)).take (lengths.getD r 0)
        = (((wpCopyLoop (computePaddingMetadata lengths tp_size).max_length data lengths 0 0
          (List.replicate
            ((computePaddingMetadata lengths tp_size).max_length * lengths.length)
            (zeroRow w))).drop
            ((computePaddingMetadata lengths tp_size).max_length * r)).take
              ((computePaddingMetadata lengths tp_size).max_length)).take (lengths.getD r 0) := by
      rw [List.take_take, min_eq_left hlr]
    rw [htk, hslot, List.take_append_eq_append_take, hA, Nat.sub_self, List.take_zero,
      List.append_nil, List.take_of_length_le (le_of_eq hA)]
  · rw [hpad]
    have hd : (wpCopyLoop (computePaddingMetadata lengths tp_size).max_length data lengths 0 0
          (List.replicate
            ((computePaddingMetadata lengths tp_size).max_length * lengths.length)
            (zeroRow w))).drop
            ((computePaddingMetadata lengths tp_size).max_length * r + lengths.getD r 0)
        = ((wpCopyLoop (computePaddingMetadata lengths tp_size).max_length data lengths 0 0
          (List.replicate
            ((computePaddingMetadata lengths tp_size).max_length * lengths.length)
            (zeroRow w))).drop
            ((computePaddingMetadata lengths tp_size).max_length * r)).drop
              (lengths.getD r 0) := by
      rw [List.drop_drop]
    rw [hd, ← List.drop_take, hslot, List.drop_append_eq_append_drop, hA, Nat.sub_self,
      List.drop_zero, List.drop_eq_nil_of_le (le_of_eq hA), List.nil_append]

/-- Witness for C2 at `lengths = [5,3]`, `tp = 2`, rank 0 on the concrete
8-row packed tensor: unpadding recovers rank 0's 5-row block. -/
theorem wp_roundtrip_witness :
    (0 < 2) ∧ (dataWp.length = ([5, 3] : List Nat).sum) ∧ (0 < ([5, 3] : List Nat).length)
    ∧ unpadding_aligned_wp (computePaddingMetadata [5, 3] 2) 0
          (padding_aligned_wp (computePaddingMetadata [5, 3] 2) 1 dataWp)
        = (dataWp.drop (([5, 3] : List Nat).take 0).sum).take (([5, 3] : List Nat).getD 0 0) :=
  ⟨by decide, by decide, by decide,
    (wp_roundtrip [5, 3] 2 1 (by decide) _ rfl dataWp (by decide) 0 (by decide)).1⟩

/-- C9 counterexample: under MC2 in decode with `tp = 2` (rank 0), the MoE
block returns the 2-row chunk of a 4-row input (experts taken as the
identity, scaling factor 1), so the output shape is not the input shape
`(T, H)` as the claim states. -/
theorem moe_shape_counterexample :
    CustomDeepseekV2MoE_forward true false 2 0 id 1 [[1], [2], [3], [4]] = [[1], [2]]
    ∧ (CustomDeepseekV2MoE_forward true false 2 0 id 1 [[1], [2], [3], [4]]).length
        ≠ ([[1], [2], [3], [4]] : Tensor).length := by
  have h : CustomDeepseekV2MoE_forward true false 2 0 id 1 [[1], [2], [3], [4]] = [[1], [2]] := by
    norm_num [CustomDeepseekV2MoE_forward, torchChunk, smulT]
  refine ⟨h, ?_⟩
  rw [h]
  decide

/-- C9 amended: for a row-count-preserving experts operation, the MoE block's
output has the input's row count except under MC2 in decode with TP width
greater than 1, where it has the row count of this rank's `torch.chunk`
slice; the output is the routed-scaling-factor multiple of the experts'
output with the cross-rank reduction left to the caller. -/
theorem moe_shape_amended (enable_mc2 is_prefill : Bool) (tp_size tp_rank : Nat)
    (experts : Tensor → Tensor) (s : ℚ) (hidden : Tensor)
    (hexp : ∀ t, (experts t).length = t.length) :
    (CustomDeepseekV2MoE_forward enable_mc2 is_prefill tp_size tp_rank experts s hidden).length
      = (if enable_mc2 && !is_prefill && decide (1 < tp_size)
         then (torchChunk hidden tp_size tp_rank).length else hidden.length)
    ∧ CustomDeepseekV2MoE_forward enable_mc2 is_prefill tp_size tp_rank experts s hidden
      = smulT s (experts (if enable_mc2 && !is_prefill && decide (1 < tp_size)
          then torchChunk hidden tp_size tp_rank else hidden)) := by
  have h1 : CustomDeepseekV2MoE_forward enable_mc2 is_prefill tp_size tp_rank experts s hidden
      = smulT s (experts (if enable_mc2 && !is_prefill && decide (1 < tp_size)
          then torchChunk hidden tp_size tp_rank else hidden)) := rfl
  refine ⟨?_, h1⟩
  rw [h1]
  unfold smulT
  rw [List.length_map, hexp]
  by_cases hb : (enable_mc2 && !is_prefill && decide (1 < tp_size)) = true
  · rw [if_pos hb, if_pos hb]
  · rw [if_neg hb, if_neg hb]

/-- Witness for the amended C9 with the identity experts on a 2-row input
and no MC2 slicing. -/
theorem moe_shape_amended_witness :
    (CustomDeepseekV2MoE_forward false true 1 0 id 2 [[1], [2]]).length
      = (if false && !true && decide (1 < 1)
         then (torchChunk [[1], [2]] 1 0).length else ([[1], [2]] : Tensor).length) :=
  (moe_shape_amended false true 1 0 id 2 [[1], [2]] (fun _ => rfl)).1

lemma except_isOk_error {ε α : Type} (e : ε) : (Except.error e : Except ε α).isOk = false := rfl

lemma except_isOk_ok {ε α : Type} (a : α) : (Except.ok a : Except ε α).isOk = true := rfl

/-- C10: the construction-time checks succeed exactly when the TP width does
not exceed the routed-expert count (MoE block) and the activation is
`"silu"` (MoE block, dense MLP, shared-expert MLP); the forward functions of
this development take neither parameter, matching the source, which checks
them only in `__init__`. -/
theorem construction_errors (tp_size n_routed_experts : Nat) (hidden_act : String) :
    ((CustomDeepseekV2MoE_init tp_size n_routed_experts hidden_act).isOk = true
      ↔ tp_size ≤ n_routed_experts ∧ hidden_act = "silu")
    ∧ ((CustomDeepseekV2MLP_init hidden_act).isOk = true ↔ hidden_act = "silu")
    ∧ ((CustomDeepseekV2SharedExpertMLP_init hidden_act).isOk = true ↔ hidden_act = "silu") := by
  refine ⟨?_, ?_, ?_⟩
  · unfold CustomDeepseekV2MoE_init
    split_ifs with h1 h2
    · rw [except_isOk_error]
      simp only [Bool.false_eq_true, false_iff]
      rintro ⟨ha, _⟩
      omega
    · rw [except_isOk_error]
      simp only [Bool.false_eq_true, false_iff]
      rintro ⟨_, hb⟩
      exact h2 hb
    · rw [except_isOk_ok]
      simp only [eq_self_iff_true, true_iff]
      exact ⟨by omega, not_not.mp h2⟩
  · unfold CustomDeepseekV2MLP_init
    split_ifs with h1
    · rw [except_isOk_error]
      simp only [Bool.false_eq_true, false_iff]
      exact h1
    · rw [except_isOk_ok]
      simp only [eq_self_iff_true, true_iff]
      exact not_not.mp h1
  · unfold CustomDeepseekV2SharedExpertMLP_init
    split_ifs with h1
    · rw [except_isOk_error]
      simp only [Bool.false_eq_true, false_iff]
      exact h1
    · rw [except_isOk_ok]
      simp only [eq_self_iff_true, true_iff]
      exact not_not.mp h1

/-- C4: the post-attention communication policy: in prefill or eager mode,
(a) with data-parallel width at most 1 or a layer before the first MoE layer,
a TP all-reduce then the post-attention normalization; (b) otherwise pad to
TP alignment, reduce-scatter over TP, normalize (with the residual
pad-and-slice exactly at the first MoE layer), all-gather over WP, unpad.
In graph mode during decode: TP all-reduce iff TP width exceeds 1, DP
all-gather iff MC2 is not active, then normalize. -/
theorem post_attention_comm_policy {T : Type} (ops : LayerOps T) (cfg : LayerCfg)
    (hidden residual : T) :
    (((cfg.is_prefill || !cfg.enable_graph_mode) = true) →
      ((cfg.dp_size ≤ 1 ∨ cfg.layer_idx < cfg.first_k_dense_replace) →
        post_attention_process ops cfg hidden residual
          = ops.postNormPair (ops.allReduceTP hidden) residual)
      ∧ (1 < cfg.dp_size → cfg.first_k_dense_replace ≤ cfg.layer_idx →
          post_attention_process ops cfg hidden residual
            = (ops.unpadTP (ops.allGatherWP
                  ((ops.postNormPair (ops.reduceScatterTP (ops.padTP hidden))
                    (if cfg.layer_idx = cfg.first_k_dense_replace
                     then ops.padSliceResidual (ops.reduceScatterTP (ops.padTP hidden)) residual
                     else residual)).1)),
                (ops.postNormPair (ops.reduceScatterTP (ops.padTP hidden))
                  (if cfg.layer_idx = cfg.first_k_dense_replace
                   then ops.padSliceResidual (ops.reduceScatterTP (ops.padTP hidden)) residual
                   else residual)).2)))
    ∧ ((cfg.is_prefill = false ∧ cfg.enable_graph_mode = true) →
        post_attention_process ops cfg hidden residual
          = ops.postNormPair
              ((if cfg.enable_mc2 = false then ops.allGatherDP else id)
                ((if 1 < cfg.tp_size then ops.allReduceTP else id) hidden)) residual) := by
  unfold post_attention_process
  constructor
  · intro hb
    rw [if_pos hb]
    constructor
    · intro hc
      rw [if_pos hc]
    · intro h1 h2
      rw [if_neg (by omega : ¬(cfg.dp_size ≤ 1 ∨ cfg.layer_idx < cfg.first_k_dense_replace))]
  · rintro ⟨hp, hg⟩
    rw [if_neg (by rw [hp, hg]; simp : ¬((cfg.is_prefill || !cfg.enable_graph_mode) = true)), hg]
    by_cases hm : cfg.enable_mc2 <;> by_cases ht : 1 < cfg.tp_size <;> simp [hm, ht]

/-- Witness for C4 on the graph-decode branch with the concrete `ℚ`
operations. -/
theorem post_attention_comm_policy_witness :
    (cfgGraphDecode.is_prefill = false ∧ cfgGraphDecode.enable_graph_mode = true)
    ∧ post_attention_process opsQ cfgGraphDecode 3 5
      = opsQ.postNormPair
          ((if cfgGraphDecode.enable_mc2 = false then opsQ.allGatherDP else id)
            ((if 1 < cfgGraphDecode.tp_size then opsQ.allReduceTP else id) 3)) 5 :=
  ⟨⟨rfl, rfl⟩, (post_attention_comm_policy opsQ cfgGraphDecode 3 5).2 ⟨rfl, rfl⟩⟩

/-- C5: for an MoE layer with a shared expert, the FFN-stage output handed to
the post-MoE communication step is `routed_scaling_factor * routed_combine +
shared_output`, with the shared contribution included exactly once, before
any communication reduction: `layer_forward` passes exactly this value (and
the shared output) to `post_moe_process`. -/
theorem ffn_shared_contribution {T : Type} (ops : LayerOps T) (cfg : LayerCfg)
    (hidden : T) (residual : Option T)
    (hmoe : cfg.is_moe = true) (hsh : cfg.n_shared_experts.isSome = true) :
    (∀ x : T, (ffn_stage ops cfg x).2
        = ops.add
            (ops.smul cfg.routed_scaling_factor
              (ops.experts (if cfg.enable_mc2 && !cfg.is_prefill && decide (1 < cfg.tp_size)
                then ops.chunkOwn x else x)))
            (ops.sharedExperts x))
    ∧ layer_forward ops cfg hidden residual
      = post_moe_process ops cfg
          (some (ops.sharedExperts
            (post_attention_process ops cfg (attn_stage ops cfg hidden residual).1
              (attn_stage ops cfg hidden residual).2).1))
          (ffn_stage ops cfg
            (post_attention_process ops cfg (attn_stage ops cfg hidden residual).1
              (attn_stage ops cfg hidden residual).2).1).2
          (post_attention_process ops cfg (attn_stage ops cfg hidden residual).1
            (attn_stage ops cfg hidden residual).2).2 := by
  constructor
  · intro x
    unfold ffn_stage moe_block_forward
    rw [if_pos hsh]
  · have h1 : (ffn_stage ops cfg
          (post_attention_process ops cfg (attn_stage ops cfg hidden residual).1
            (attn_stage ops cfg hidden residual).2).1).1
        = some (ops.sharedExperts
            (post_attention_process ops cfg (attn_stage ops cfg hidden residual).1
              (attn_stage ops cfg hidden residual).2).1) := by
      unfold ffn_stage
      rw [if_pos hsh]
    simp only [layer_forward]
    rw [if_pos hmoe, h1, hmoe]
    rcases post_moe_process ops cfg
        (some (ops.sharedExperts
          (post_attention_process ops cfg (attn_stage ops cfg hidden residual).1
            (attn_stage ops cfg hidden residual).2).1))
        ((ffn_stage ops cfg
          (post_attention_process ops cfg (attn_stage ops cfg hidden residual).1
            (attn_stage ops cfg hidden residual).2).1).2)
        ((post_attention_process ops cfg (attn_stage ops cfg hidden residual).1
          (attn_stage ops cfg hidden residual).2).2) with _ | p
    · rfl
    · rfl

/-- Witness for C5 at the eager MoE configuration with the concrete `ℚ`
operations: the FFN-stage output on input 3. -/
theorem ffn_shared_contribution_witness :
    (cfgMoeEager.is_moe = true) ∧ (cfgMoeEager.n_shared_experts.isSome = true)
    ∧ (ffn_stage opsQ cfgMoeEager 3).2
      = opsQ.add
          (opsQ.smul cfgMoeEager.routed_scaling_factor
            (opsQ.experts
              (if cfgMoeEager.enable_mc2 && !cfgMoeEager.is_prefill
                  && decide (1 < cfgMoeEager.tp_size)
               then opsQ.chunkOwn 3 else 3)))
          (opsQ.sharedExperts 3) :=
  ⟨rfl, rfl, (ffn_shared_contribution opsQ cfgMoeEager 0 none rfl rfl).1 3⟩

/-- C6: FP16 overflow-guard scaling: with FP16 hidden states the
post-attention hidden state is scaled by the inverse routed scaling factor at
every layer, the residual is scaled exactly at layer 0, and a dense layer's
final output is additionally scaled; with any other dtype none of these
multiplications happens. -/
theorem fp16_scaling_policy {T : Type} (ops : LayerOps T) (cfg : LayerCfg)
    (hidden : T) (r0 : T) :
    (cfg.dtype_fp16 = true →
      ((attn_stage ops cfg hidden (some r0)).1
          = ops.smul (1 / cfg.routed_scaling_factor) (ops.attn (ops.inputNorm hidden)))
      ∧ ((attn_stage ops cfg hidden (some r0)).2
          = if cfg.layer_idx = 0 then ops.smul (1 / cfg.routed_scaling_factor) r0 else r0)
      ∧ (cfg.is_moe = false →
          layer_forward ops cfg hidden (some r0)
            = some (ops.smul (1 / cfg.routed_scaling_factor)
                (ops.add
                  (ops.denseMlp
                    (post_attention_process ops cfg (attn_stage ops cfg hidden (some r0)).1
                      (attn_stage ops cfg hidden (some r0)).2).1)
                  (post_attention_process ops cfg (attn_stage ops cfg hidden (some r0)).1
                    (attn_stage ops cfg hidden (some r0)).2).2), none)))
    ∧ (cfg.dtype_fp16 = false →
      (attn_stage ops cfg hidden (some r0) = (ops.attn (ops.inputNorm hidden), r0))
      ∧ (cfg.is_moe = false →
          layer_forward ops cfg hidden (some r0)
            = some (ops.add
                (ops.denseMlp
                  (post_attention_process ops cfg (attn_stage ops cfg hidden (some r0)).1
                    (attn_stage ops cfg hidden (some r0)).2).1)
                (post_attention_process ops cfg (attn_stage ops cfg hidden (some r0)).1
                  (attn_stage ops cfg hidden (some r0)).2).2, none))) := by
  constructor
  · intro hf
    refine ⟨?_, ?_, ?_⟩
    · simp [attn_stage, hf]
    · by_cases hi : cfg.layer_idx = 0 <;> simp [attn_stage, hf, hi]
    · intro hm
      simp [layer_forward, hf, hm]
  · intro hf
    refine ⟨?_, ?_⟩
    · simp [attn_stage, hf]
    · intro hm
      simp [layer_forward, hf, hm]

/-- Witness for C6 at the FP16 dense layer-0 configuration with the concrete
`ℚ` operations. -/
theorem fp16_scaling_policy_witness :
    (cfgFp16Dense.dtype_fp16 = true)
    ∧ (attn_stage opsQ cfgFp16Dense 4 (some 6)).1
        = opsQ.smul (1 / cfgFp16Dense.routed_scaling_factor) (opsQ.attn (opsQ.inputNorm 4))
    ∧ (attn_stage opsQ cfgFp16Dense 4 (some 6)).2
        = if cfgFp16Dense.layer_idx = 0
          then opsQ.smul (1 / cfgFp16Dense.routed_scaling_factor) 6 else 6 :=
  ⟨rfl, ((fp16_scaling_policy opsQ cfgFp16Dense 4 6).1 rfl).1,
    ((fp16_scaling_policy opsQ cfgFp16Dense 4 6).1 rfl).2.1⟩

/-- C7 counterexample: an intermediate dense layer (layer 1 of 3, eager
prefill) returns a null residual, contradicting the claim that the residual
threaded between layers is non-null after every intermediate layer. -/
theorem residual_null_counterexample :
    (layer_forward opsQ cfgDenseEager 1 (some 2)).map (fun p => p.2) = some none
    ∧ cfgDenseEager.layer_idx = 1 ∧ cfgDenseEager.num_hidden_layers = 3 :=
  ⟨rfl, rfl, rfl⟩

/-- C7 amended: the residual returned by a decoder layer is non-null exactly
on the prefill-or-eager path of an MoE layer with data-parallel width above 1
that is not the stack's last layer; it is null after every dense layer, after
every MoE layer with `dp <= 1` or in graph-decode mode, and after the last
layer. -/
theorem residual_null_amended {T : Type} (ops : LayerOps T) (cfg : LayerCfg)
    (hidden : T) (residual : Option T) (out : T × Option T)
    (hout : layer_forward ops cfg hidden residual = some out) :
    out.2.isSome
      = ((cfg.is_prefill || !cfg.enable_graph_mode) && (cfg.is_moe
          && (decide (1 < cfg.dp_size)
          && !decide (cfg.layer_idx = cfg.num_hidden_layers - 1)))) := by
  simp only [layer_forward, ffn_stage, moe_block_forward] at hout
  rcases Bool.eq_false_or_eq_true cfg.is_moe with hm | hm
  · simp only [hm, eq_self_iff_true, if_true, Bool.not_true, Bool.false_and,
      Bool.false_eq_true, if_false, post_moe_process] at hout
    rcases Bool.eq_false_or_eq_true (cfg.is_prefill || !cfg.enable_graph_mode) with he | he
    · simp only [he, eq_self_iff_true, if_true] at hout
      rcases Bool.eq_false_or_eq_true cfg.n_shared_experts.isSome with hs | hs
      · simp only [hs, eq_self_iff_true, if_true] at hout
        by_cases hdp : cfg.dp_size ≤ 1
        · simp only [if_pos hdp, Option.map_some', Option.some.injEq] at hout
          subst hout
          simp [hm, he, decide_eq_false (by omega : ¬(1 < cfg.dp_size))]
        · simp only [if_neg hdp] at hout
          by_cases hl : cfg.layer_idx = cfg.num_hidden_layers - 1
          · simp only [if_pos hl, Option.map_some', Option.some.injEq] at hout
            subst hout
            simp [hm, he, hl]
          · simp only [if_neg hl, Option.map_some', Option.some.injEq] at hout
            subst hout
            simp [hm, he, decide_eq_true (by omega : 1 < cfg.dp_size), decide_eq_false hl]
      · simp only [hs, Bool.false_eq_true, if_false, Option.map_none'] at hout
        exact absurd hout (by simp)
    · simp only [he, Bool.false_eq_true, if_false] at hout
      rcases Bool.eq_false_or_eq_true cfg.enable_mc2 with hc | hc
      · simp only [hc, eq_self_iff_true, if_true] at hout
        rcases Bool.eq_false_or_eq_true cfg.n_shared_experts.isSome with hs | hs
        · simp only [hs, eq_self_iff_true, if_true, Option.map_some',
            Option.some.injEq] at hout
          subst hout
          simp [hm, he]
        · simp only [hs, Bool.false_eq_true, if_false, Option.map_none'] at hout
          exact absurd hout (by simp)
      · simp only [hc, Bool.false_eq_true, if_false] at hout
        rcases Bool.eq_false_or_eq_true cfg.n_shared_experts.isSome with hs | hs
        · simp only [hs, eq_self_iff_true, if_true, Option.map_some',
            Option.some.injEq] at hout
          subst hout
          simp [hm, he]
        · simp only [hs, Bool.false_eq_true, if_false, Option.map_none'] at hout
          exact absurd hout (by simp)
  · simp only [hm, Bool.false_eq_true, if_false, Bool.not_false, Bool.true_and,
      Option.map_some', Option.some.injEq] at hout
    subst hout
    simp [hm]

/-- Witness for the amended C7 on the eager MoE `dp = 2` path (rank 1 of the
`lengths = [5,3]` plan, row-count semantics): the returned residual is
non-null, matching the characterization. -/
theorem residual_null_amended_witness :
    (((some 3, some (some 3)) : Option Nat × Option (Option Nat)).2).isSome
      = ((cfgMoeEager.is_prefill || !cfgMoeEager.enable_graph_mode) && (cfgMoeEager.is_moe
          && (decide (1 < cfgMoeEager.dp_size)
          && !decide (cfgMoeEager.layer_idx = cfgMoeEager.num_hidden_layers - 1)))) :=
  residual_null_amended (shapeOps (computePaddingMetadata [5, 3] 2) 1 0 2 2 4) cfgMoeEager
    (some 3) (some (some 3)) (some 3, some (some 3)) (by decide)

/-- C8 counterexample: on the eager/prefill MoE path with `dp = 2`, `tp = 2`,
`wp = 4` and the `lengths = [5,3]` plan (rank 0), the layer returns a
non-null residual of 3 rows (the reduce-scattered layout) alongside a hidden
state of 5 rows (this rank's unpadded token count), so the returned residual
does not share the hidden state's shape. -/
theorem residual_shape_counterexample :
    layer_forward (shapeOps (computePaddingMetadata [5, 3] 2) 0 0 2 2 4) cfgMoeEager
        (some 5) (some (some 3))
      = some (some 5, some (some 3))
    ∧ (5 : Nat) ≠ 3 := by
  constructor
  · decide
  · decide

/-- C8 amended: whenever `post_moe_process` returns a non-null residual (the
eager/prefill `dp > 1` non-final-layer MoE path), that residual is the
reduce-scattered tensor of `max_length * dp_size / wp_size` rows, while the
returned hidden state has this rank's unpadded token count
`min(lengths[rank], ...)`; the two coincide only when those counts are equal. -/
theorem residual_shape_amended (meta : DPMetadataForPadding)
    (dp_rank tp_rank tp_size dp_size wp_size : Nat) (cfg : LayerCfg)
    (so n m : Nat)
    (he : (cfg.is_prefill || !cfg.enable_graph_mode) = true)
    (hdp : ¬ cfg.dp_size ≤ 1)
    (hlast : ¬ cfg.layer_idx = cfg.num_hidden_layers - 1)
    (hso : so = n)
    (hwp : wp_size ∣ meta.max_length * meta.lengths.length)
    (hm : m = meta.max_length * meta.lengths.length / wp_size) :
    post_moe_process (shapeOps meta dp_rank tp_rank tp_size dp_size wp_size) cfg
        (some (some so)) (some n) (some m)
      = some
          (some (min (meta.lengths.getD dp_rank 0)
            (meta.max_length * meta.lengths.length - meta.max_length * dp_rank)),
           some (some (meta.max_length * meta.lengths.length / wp_size))) := by
  subst hso hm
  simp [post_moe_process, shapeOps, sAdd, he, hdp, hlast, hwp, Nat.mul_div_cancel' hwp]

/-- Witness for the amended C8 at the `lengths = [5,3]`, `tp = 2`, `wp = 4`
plan, rank 1, with 8 merged rows and a 3-row residual. -/
theorem residual_shape_amended_witness :
    post_moe_process (shapeOps (computePaddingMetadata [5, 3] 2) 1 0 2 2 4) cfgMoeEager
        (some (some 8)) (some 8) (some 3)
      = some
          (some (min ((computePaddingMetadata [5, 3] 2).lengths.getD 1 0)
            ((computePaddingMetadata [5, 3] 2).max_length
                * (computePaddingMetadata [5, 3] 2).lengths.length
              - (computePaddingMetadata [5, 3] 2).max_length * 1)),
           some (some ((computePaddingMetadata [5, 3] 2).max_length
                * (computePaddingMetadata [5, 3] 2).lengths.length / 4))) :=
  residual_shape_amended (computePaddingMetadata [5, 3] 2) 1 0 2 2 4 cfgMoeEager 8 8 3
    (by decide) (by decide) (by decide) rfl (by decide) (by decide)
